import Mathlib

/-!
Verification of the preimage-distribution and interception subsystem of a
Lightning-style payment node (the "preimage beacon" and "interception gate").

The repository ships only the subsystem's test (`witness_beacon_test.go`);
the beacon and gate implementation lives outside the provided sources, so the
operations below are modelled from the specification, with the test pinning
the observable behaviour it exercises.  In particular the test reads
`update := <-subscription.WitnessUpdates` and asserts
`require.Equal(t, preimage, update)`: the value carried on a subscription's
delivery channel is the bare preimage itself.

Machine data: payment hashes and preimages are 32-byte values used only as
lookup keys; they are embedded as natural numbers, and the hash function is
an arbitrary parameter `hashFn : Preimage → PaymentHash` (the code treats
SHA-256 as an opaque map from preimages to hashes).
-/

namespace PreimageBeacon

/-- Modelled from the spec: a preimage is a 32-byte secret, used here only
through equality tests and the hash function; embedded as a natural number. -/
abbrev Preimage := Nat

/-- Modelled from the spec: a payment hash is a 32-byte digest of a preimage,
used only as a lookup key; embedded as a natural number. -/
abbrev PaymentHash := Nat

/-- Modelled from the spec: reasons passed to `Fail`, including the canonical
"interception timeout" reason the gate uses when its deadline expires. -/
inductive FailReason where
  | interceptionTimeout
  | custom (code : Nat)
deriving DecidableEq, Repr

/-- Modelled from the spec: the error kinds of the subsystem
(section 7 of the design document). -/
inductive CoreError where
  | ConflictingPreimage
  | DoubleResolution
  | PreimageMismatch
  | StoreUnavailable
deriving DecidableEq, Repr

/-- The event payload as the spec's words describe it: "the resolved Preimage
plus the hash it resolves".  Kept for comparison with the payload the test
pins down (which is the bare preimage). -/
structure WitnessUpdateSpec where
  paymentHash : PaymentHash
  preimage : Preimage
deriving DecidableEq, Repr

/-- Modelled from the spec: one registered subscription.  `hash` and `ctx`
form the SubscriptionKey (payment hash plus forwarding context); `updates` is
the single-delivery slot buffering updates not yet consumed by the owner
(per the test, each buffered update is the bare preimage); `delivered`
records that the one permitted delivery has happened (internal
de-duplication); `canceled` records an explicit cancellation. -/
structure SubEntry where
  hash : PaymentHash
  ctx : Nat
  updates : List Preimage
  delivered : Bool
  canceled : Bool
deriving DecidableEq, Repr

/-- Modelled from the spec: the beacon's state — the durable Witness Store
(hash to preimage mapping, most recent write first) and the in-memory
registry of subscriptions keyed by a fresh identifier. -/
structure BeaconState where
  store : List (PaymentHash × Preimage)
  subs : List (Nat × SubEntry)
  nextId : Nat
deriving DecidableEq, Repr

/-- The beacon with an empty store and no registered subscriptions. -/
def emptyBeacon : BeaconState := { store := [], subs := [], nextId := 0 }

/-- Modelled from the spec: `Subscribe(hash, context)` registers interest; if
the hash is already resolved in the Witness Store the returned subscription's
single update is already queued (pre-resolved, delivery marked done).
Returns the new state and the subscription's identifier. -/
def subscribe (h : PaymentHash) (ctx : Nat) (b : BeaconState) :
    BeaconState × Nat :=
  let entry : SubEntry :=
    match b.store.lookup h with
    | some p =>
        { hash := h, ctx := ctx, updates := [p], delivered := true,
          canceled := false }
    | none =>
        { hash := h, ctx := ctx, updates := [], delivered := false,
          canceled := false }
  ({ b with subs := b.subs ++ [(b.nextId, entry)], nextId := b.nextId + 1 },
   b.nextId)

/-- Modelled from the spec: fan-out to one subscription — deliver the
preimage to a matching, not-yet-delivered, not-cancelled subscription,
marking it delivered (each subscription delivers at most once). -/
def deliver (h : PaymentHash) (p : Preimage) (e : SubEntry) : SubEntry :=
  if e.hash = h ∧ e.delivered = false ∧ e.canceled = false then
    { e with updates := e.updates ++ [p], delivered := true }
  else e

/-- Modelled from the spec: `Publish(preimage)` computes the hash, writes it
to the Witness Store (idempotent on a duplicate value; a conflicting value
for an already-resolved hash is rejected as `ConflictingPreimage` and nothing
changes), then delivers to every currently-registered matching
subscription. -/
def publish (hashFn : Preimage → PaymentHash) (p : Preimage)
    (b : BeaconState) : Except CoreError BeaconState :=
  let h := hashFn p
  match b.store.lookup h with
  | some q =>
      if q = p then
        .ok { b with
              subs := b.subs.map (fun ie => (ie.1, deliver h p ie.2)) }
      else .error .ConflictingPreimage
  | none =>
      .ok { b with
            store := (h, p) :: b.store,
            subs := b.subs.map (fun ie => (ie.1, deliver h p ie.2)) }

/-- Modelled from the spec: iterate `Publish` of the same value `n` more
times, stopping at the first error. -/
def publishMany (hashFn : Preimage → PaymentHash) (p : Preimage) :
    Nat → BeaconState → Except CoreError BeaconState
  | 0, b => .ok b
  | n + 1, b =>
      match publish hashFn p b with
      | .ok b2 => publishMany hashFn p n b2
      | .error e => .error e

/-- Marking one registry entry cancelled when its identifier matches. -/
def cancelMark (id : Nat) (ie : Nat × SubEntry) : Nat × SubEntry :=
  if ie.1 = id then (ie.1, { ie.2 with canceled := true }) else ie

/-- Modelled from the spec: `CancelSubscription` marks the subscription
cancelled; it removes the registration without delivering and never touches
an already-buffered update. -/
def cancelSubscription (id : Nat) (b : BeaconState) : BeaconState :=
  { b with subs := b.subs.map (cancelMark id) }

/-- Modelled from the spec: the subscription owner consuming one buffered
update from its delivery slot (the receive on `WitnessUpdates` in the test);
returns the update and the state with that update dequeued. -/
def receiveUpdate (id : Nat) (b : BeaconState) :
    Option (Preimage × BeaconState) :=
  match b.subs.lookup id with
  | none => none
  | some e =>
      match e.updates with
      | [] => none
      | u :: rest =>
          some (u, { b with
            subs := b.subs.map (fun ie =>
              if ie.1 = id then (ie.1, { ie.2 with updates := rest })
              else ie) })

/-- Modelled from the spec: the per-forward state machine
`Pending -> {Settled, Failed, Resumed, TimedOut}`; the terminal `TimedOut`
state records the canonical failure reason the gate fails the forward
with. -/
inductive FwdState where
  | Pending
  | Settled
  | Failed (reason : FailReason)
  | Resumed
  | TimedOut (reason : FailReason)
deriving DecidableEq, Repr

/-- True exactly on the terminal states of the forward state machine. -/
def terminal : FwdState → Bool
  | .Pending => false
  | _ => true

/-- Modelled from the spec: an intercepted forward held at the gate together
with the beacon it publishes through and the gate's deadline clock —
`paymentHash` is the forward's hash, `now` the discrete time elapsed since
interception, `deadline` the decision window's bound. -/
structure GateState where
  fwd : FwdState
  paymentHash : PaymentHash
  beacon : BeaconState
  now : Nat
  deadline : Nat
deriving DecidableEq, Repr

/-- Modelled from the spec: `Intercept` hands a forward to the interceptor:
the forward enters `Pending` and the deadline timer starts. -/
def intercept (h : PaymentHash) (deadline : Nat) (b : BeaconState) :
    GateState :=
  { fwd := .Pending, paymentHash := h, beacon := b, now := 0,
    deadline := deadline }

/-- An interceptor's verdict: one of the three resolution capabilities of an
intercepted forward. -/
inductive Verdict where
  | settleV (p : Preimage)
  | failV (r : FailReason)
  | resumeV
deriving DecidableEq, Repr

/-- Modelled from the spec: applying a resolution capability.  Each is valid
only from `Pending` (otherwise `DoubleResolution`); `Settle` additionally
verifies the preimage hashes to the forward's payment hash (otherwise
`PreimageMismatch`, with no publish), publishes through the beacon and moves
to `Settled`; `Fail` moves to `Failed`; `Resume` to `Resumed`.  On error the
caller's state is unchanged (no new state is produced). -/
def resolve (hashFn : Preimage → PaymentHash) (v : Verdict) (s : GateState) :
    Except CoreError GateState :=
  if s.fwd = .Pending then
    match v with
    | .settleV p =>
        if hashFn p = s.paymentHash then
          match publish hashFn p s.beacon with
          | .ok b2 => .ok { s with fwd := .Settled, beacon := b2 }
          | .error e => .error e
        else .error .PreimageMismatch
    | .failV r => .ok { s with fwd := .Failed r }
    | .resumeV => .ok { s with fwd := .Resumed }
  else .error .DoubleResolution

/-- Modelled from the spec: one unit of time passing at the gate.  When the
clock reaches the deadline and the forward is still `Pending`, the gate fires
the timeout: the forward moves to `TimedOut` with the canonical interception
timeout reason. -/
def tick (s : GateState) : GateState :=
  if s.deadline ≤ s.now + 1 ∧ s.fwd = .Pending then
    { s with now := s.now + 1, fwd := .TimedOut .interceptionTimeout }
  else { s with now := s.now + 1 }

/-- An externally observable event at the gate: an interceptor verdict, or
one unit of time passing. -/
inductive GateEvent where
  | verdict (v : Verdict)
  | tickEv
deriving DecidableEq, Repr

/-- Modelled from the spec: the gate processing one event.  A verdict whose
resolution is rejected (for example a second resolution) leaves the state
unchanged — the first resolution's effect stands. -/
def gateStep (hashFn : Preimage → PaymentHash) (ev : GateEvent)
    (s : GateState) : GateState :=
  match ev with
  | .verdict v =>
      match resolve hashFn v s with
      | .ok s2 => s2
      | .error _ => s
  | .tickEv => tick s

/-- Running the gate over a sequence of events. -/
def runGate (hashFn : Preimage → PaymentHash) (evs : List GateEvent)
    (s : GateState) : GateState :=
  evs.foldl (fun st e => gateStep hashFn e st) s

/-- A concrete hash function used to instantiate theorems on concrete
inputs. -/
def hf0 : Preimage → PaymentHash := fun p => p + 100

/-- A concrete non-injective hash function, used to instantiate conflict
scenarios (two distinct preimages with the same hash) on concrete inputs. -/
def hfDup : Preimage → PaymentHash := fun p => p / 2

/-! Helper lemmas about the registry's association-list lookups. -/

theorem lookup_map_snd (f : SubEntry → SubEntry) (l : List (Nat × SubEntry))
    (k : Nat) :
    (l.map (fun ie => (ie.1, f ie.2))).lookup k = (l.lookup k).map f := by
  induction l with
  | nil => rfl
  | cons a t ih =>
      obtain ⟨k1, e1⟩ := a
      cases hk : k == k1 <;> simp [List.lookup_cons, hk, ih]

theorem lookup_append_fresh (l : List (Nat × SubEntry)) (k : Nat)
    (e : SubEntry) (h : l.lookup k = none) :
    (l ++ [(k, e)]).lookup k = some e := by
  induction l with
  | nil => simp [List.lookup_cons]
  | cons a t ih =>
      obtain ⟨k1, e1⟩ := a
      cases hk : k == k1 with
      | true => simp [List.lookup_cons, hk] at h
      | false =>
          rw [List.lookup_cons] at h
          rw [List.cons_append, List.lookup_cons]
          simp only [hk] at h ⊢
          exact ih h

/-! Helper lemmas about `publish`. -/

theorem publish_store_lookup (hashFn : Preimage → PaymentHash) (p : Preimage)
    (b b2 : BeaconState) (h : publish hashFn p b = .ok b2) :
    b2.store.lookup (hashFn p) = some p := by
  unfold publish at h
  cases hl : b.store.lookup (hashFn p) with
  | none =>
      simp [hl] at h
      subst h
      simp [List.lookup]
  | some q =>
      simp [hl] at h
      by_cases hq : q = p
      · subst hq
        simp at h
        subst h
        simpa using hl
      · simp [hq] at h

theorem publish_subs (hashFn : Preimage → PaymentHash) (p : Preimage)
    (b b2 : BeaconState) (h : publish hashFn p b = .ok b2) :
    b2.subs = b.subs.map (fun ie => (ie.1, deliver (hashFn p) p ie.2)) ∧
      b2.nextId = b.nextId := by
  unfold publish at h
  cases hl : b.store.lookup (hashFn p) with
  | none =>
      simp [hl] at h
      subst h
      exact ⟨rfl, rfl⟩
  | some q =>
      simp [hl] at h
      by_cases hq : q = p
      · subst hq
        simp at h
        subst h
        exact ⟨rfl, rfl⟩
      · simp [hq] at h

/-- C4: if `Publish(p1)` succeeds and `Publish(p2)` follows with
`hash(p1) = hash(p2)` but `p1 ≠ p2`, the second call fails with
`ConflictingPreimage` and the Witness Store still maps the hash to `p1`. -/
theorem publish_conflict_rejected (hashFn : Preimage → PaymentHash)
    (p1 p2 : Preimage) (b b1 : BeaconState)
    (hh : hashFn p1 = hashFn p2) (hne : p1 ≠ p2)
    (h1 : publish hashFn p1 b = .ok b1) :
    publish hashFn p2 b1 = .error .ConflictingPreimage ∧
      b1.store.lookup (hashFn p1) = some p1 := by
  have hs := publish_store_lookup hashFn p1 b b1 h1
  have hs2 : b1.store.lookup (hashFn p2) = some p1 := by rw [← hh]; exact hs
  refine ⟨?_, hs⟩
  unfold publish
  simp only [hs2]
  simp [hne]

theorem publish_conflict_rejected_witness :
    hfDup 2 = hfDup 3 ∧ (2 : Preimage) ≠ 3 ∧
      publish hfDup 3 (BeaconState.mk [(1, 2)] [] 0) =
        .error .ConflictingPreimage ∧
      (BeaconState.mk [(1, 2)] [] 0).store.lookup (hfDup 2) = some 2 := by
  have h := publish_conflict_rejected hfDup 2 3 emptyBeacon
    (BeaconState.mk [(1, 2)] [] 0) rfl (by decide) rfl
  exact ⟨rfl, by decide, h.1, h.2⟩

/-- C5: resolution of an intercepted forward is one-shot — a resolution
succeeds only from `Pending` and lands in a terminal state, and from any
non-`Pending` state every later `Settle`/`Fail`/`Resume` fails with
`DoubleResolution`, leaving the gate state (and so the first resolution's
effect) unchanged. -/
theorem resolution_one_shot (hashFn : Preimage → PaymentHash) :
    (∀ s v s2, resolve hashFn v s = .ok s2 →
        s.fwd = .Pending ∧ terminal s2.fwd = true) ∧
    (∀ s v, s.fwd ≠ .Pending →
        resolve hashFn v s = .error .DoubleResolution ∧
          gateStep hashFn (.verdict v) s = s) := by
  constructor
  · intro s v s2 h
    unfold resolve at h
    by_cases hp : s.fwd = .Pending
    · refine ⟨hp, ?_⟩
      rw [if_pos hp] at h
      cases v with
      | settleV p =>
          dsimp only at h
          by_cases hm : hashFn p = s.paymentHash
          · rw [if_pos hm] at h
            cases hpub : publish hashFn p s.beacon with
            | ok b2 =>
                rw [hpub] at h
                cases h
                rfl
            | error e => rw [hpub] at h; cases h
          · rw [if_neg hm] at h
            cases h
      | failV r => cases h; rfl
      | resumeV => cases h; rfl
    · rw [if_neg hp] at h
      cases h
  · intro s v hne
    have hr : resolve hashFn v s = .error .DoubleResolution := by
      unfold resolve
      rw [if_neg hne]
    exact ⟨hr, by simp [gateStep, hr]⟩

theorem resolution_one_shot_witness :
    (resolve hf0 (.failV (.custom 7)) (intercept 5 3 emptyBeacon) =
        .ok { intercept 5 3 emptyBeacon with fwd := .Failed (.custom 7) } →
      (intercept 5 3 emptyBeacon).fwd = .Pending ∧
        terminal (FwdState.Failed (.custom 7)) = true) ∧
    (resolve hf0 .resumeV
        { intercept 5 3 emptyBeacon with fwd := .Failed (.custom 7) } =
          .error .DoubleResolution ∧
      gateStep hf0 (.verdict .resumeV)
          { intercept 5 3 emptyBeacon with fwd := .Failed (.custom 7) } =
        { intercept 5 3 emptyBeacon with fwd := .Failed (.custom 7) }) := by
  refine ⟨?_, ?_⟩
  · intro h
    have := (resolution_one_shot hf0).1 (intercept 5 3 emptyBeacon)
      (.failV (.custom 7))
      { intercept 5 3 emptyBeacon with fwd := .Failed (.custom 7) } h
    exact this
  · exact (resolution_one_shot hf0).2
      { intercept 5 3 emptyBeacon with fwd := .Failed (.custom 7) }
      .resumeV (by decide)

/-- C6: from `Pending`, `Settle` with a preimage that does not hash to the
forward's payment hash is rejected with `PreimageMismatch`; no publish
happens and the gate state is unchanged (the forward stays `Pending`). -/
theorem settle_mismatch_rejected (hashFn : Preimage → PaymentHash)
    (p : Preimage) (s : GateState) (h1 : s.fwd = .Pending)
    (h2 : hashFn p ≠ s.paymentHash) :
    resolve hashFn (.settleV p) s = .error .PreimageMismatch ∧
      gateStep hashFn (.verdict (.settleV p)) s = s := by
  have hr : resolve hashFn (.settleV p) s = .error .PreimageMismatch := by
    unfold resolve
    simp [h1, h2]
  exact ⟨hr, by simp [gateStep, hr]⟩

theorem settle_mismatch_rejected_witness :
    resolve hf0 (.settleV 9) (intercept 5 3 emptyBeacon) =
        .error .PreimageMismatch ∧
      gateStep hf0 (.verdict (.settleV 9)) (intercept 5 3 emptyBeacon) =
        intercept 5 3 emptyBeacon :=
  settle_mismatch_rejected hf0 9 (intercept 5 3 emptyBeacon) rfl (by decide)

/-! The fresh-subscription-then-settle scenario of the test
`TestWitnessBeaconIntercept`: subscribe for an unresolved hash, then settle
the intercepted forward with the matching preimage. -/

theorem subscribe_entry (h ctx : Nat) (b : BeaconState)
    (hstore : b.store.lookup h = none) :
    (subscribe h ctx b).1.subs =
        b.subs ++ [(b.nextId, SubEntry.mk h ctx [] false false)] ∧
      (subscribe h ctx b).1.store = b.store ∧
      (subscribe h ctx b).2 = b.nextId := by
  simp [subscribe, hstore]

theorem deliver_fresh (h : PaymentHash) (p : Preimage) (ctx : Nat) :
    deliver h p (SubEntry.mk h ctx [] false false) =
      SubEntry.mk h ctx [p] true false := by
  unfold deliver
  rw [if_pos ⟨rfl, rfl, rfl⟩]
  rfl

theorem settle_after_subscribe (hashFn : Preimage → PaymentHash)
    (p : Preimage) (ctx d : Nat) (b : BeaconState)
    (hstore : b.store.lookup (hashFn p) = none)
    (hfresh : b.subs.lookup b.nextId = none) :
    ∃ g2, resolve hashFn (.settleV p)
        (intercept (hashFn p) d (subscribe (hashFn p) ctx b).1) = .ok g2 ∧
      g2.fwd = .Settled ∧
      g2.beacon.subs.lookup (subscribe (hashFn p) ctx b).2 =
        some (SubEntry.mk (hashFn p) ctx [p] true false) ∧
      g2.beacon.store.lookup (hashFn p) = some p := by
  obtain ⟨hsubs, hst, hid⟩ := subscribe_entry (hashFn p) ctx b hstore
  have hpub : publish hashFn p (subscribe (hashFn p) ctx b).1 =
      .ok { (subscribe (hashFn p) ctx b).1 with
            store := (hashFn p, p) :: (subscribe (hashFn p) ctx b).1.store,
            subs := (subscribe (hashFn p) ctx b).1.subs.map
              (fun ie => (ie.1, deliver (hashFn p) p ie.2)) } := by
    unfold publish
    simp only [hst, hstore]
  refine ⟨GateState.mk .Settled (hashFn p)
      { (subscribe (hashFn p) ctx b).1 with
        store := (hashFn p, p) :: (subscribe (hashFn p) ctx b).1.store,
        subs := (subscribe (hashFn p) ctx b).1.subs.map
          (fun ie => (ie.1, deliver (hashFn p) p ie.2)) } 0 d,
    ?_, rfl, ?_, ?_⟩
  · show resolve hashFn (.settleV p)
        (GateState.mk .Pending (hashFn p) (subscribe (hashFn p) ctx b).1 0 d) =
      _
    unfold resolve
    rw [if_pos rfl]
    dsimp only
    rw [if_pos rfl, hpub]
  · show (((subscribe (hashFn p) ctx b).1.subs.map
        (fun ie => (ie.1, deliver (hashFn p) p ie.2))).lookup
          (subscribe (hashFn p) ctx b).2) = _
    rw [lookup_map_snd, hid, hsubs,
      lookup_append_fresh b.subs b.nextId _ hfresh]
    simp [deliver_fresh]
  · show (((hashFn p, p) :: (subscribe (hashFn p) ctx b).1.store).lookup
        (hashFn p)) = some p
    simp [List.lookup_cons]

/-- C1: for a subscription registered for hash `h` before any publish, a
`Settle(p)` with `hash(p) = h` on an intercepted forward for `h` returns
without error, the forward is `Settled`, and the preimage `p` is delivered
into that subscription's delivery slot. -/
theorem settle_delivers_to_subscription (hashFn : Preimage → PaymentHash)
    (p : Preimage) (ctx d : Nat) (b : BeaconState)
    (hstore : b.store.lookup (hashFn p) = none)
    (hfresh : b.subs.lookup b.nextId = none) :
    ∃ g2, resolve hashFn (.settleV p)
        (intercept (hashFn p) d (subscribe (hashFn p) ctx b).1) = .ok g2 ∧
      g2.fwd = .Settled ∧
      (g2.beacon.subs.lookup (subscribe (hashFn p) ctx b).2).map
          SubEntry.updates = some [p] := by
  obtain ⟨g2, h1, h2, h3, _⟩ :=
    settle_after_subscribe hashFn p ctx d b hstore hfresh
  exact ⟨g2, h1, h2, by rw [h3]; rfl⟩

theorem settle_delivers_to_subscription_witness :
    emptyBeacon.store.lookup (hf0 3) = none ∧
      emptyBeacon.subs.lookup emptyBeacon.nextId = none ∧
      ∃ g2, resolve hf0 (.settleV 3)
          (intercept (hf0 3) 5 (subscribe (hf0 3) 2 emptyBeacon).1) =
            .ok g2 ∧
        g2.fwd = .Settled ∧
        (g2.beacon.subs.lookup (subscribe (hf0 3) 2 emptyBeacon).2).map
            SubEntry.updates = some [3] :=
  ⟨rfl, rfl, settle_delivers_to_subscription hf0 3 2 5 emptyBeacon rfl rfl⟩

/-- C2: once a preimage has been durably published for a hash, every later
subscribe for that hash returns a subscription whose single update carrying
the known preimage is already queued (and already marked delivered), with no
dependency on any later publish. -/
theorem subscribe_pre_resolved (hashFn : Preimage → PaymentHash)
    (p : Preimage) (ctx : Nat) (b b2 : BeaconState)
    (hpub : publish hashFn p b = .ok b2)
    (hfresh : b2.subs.lookup b2.nextId = none) :
    ((subscribe (hashFn p) ctx b2).1.subs.lookup
        (subscribe (hashFn p) ctx b2).2).map SubEntry.updates = some [p] ∧
      ((subscribe (hashFn p) ctx b2).1.subs.lookup
        (subscribe (hashFn p) ctx b2).2).map SubEntry.delivered =
          some true := by
  have hs := publish_store_lookup hashFn p b b2 hpub
  unfold subscribe
  simp only [hs]
  rw [lookup_append_fresh b2.subs b2.nextId _ hfresh]
  exact ⟨rfl, rfl⟩

theorem subscribe_pre_resolved_witness :
    publish hf0 3 emptyBeacon = .ok (BeaconState.mk [(103, 3)] [] 0) ∧
      (BeaconState.mk [(103, 3)] [] 0).subs.lookup 0 = none ∧
      (((subscribe (hf0 3) 7 (BeaconState.mk [(103, 3)] [] 0)).1.subs.lookup
          (subscribe (hf0 3) 7 (BeaconState.mk [(103, 3)] [] 0)).2).map
            SubEntry.updates = some [3] ∧
        ((subscribe (hf0 3) 7 (BeaconState.mk [(103, 3)] [] 0)).1.subs.lookup
          (subscribe (hf0 3) 7 (BeaconState.mk [(103, 3)] [] 0)).2).map
            SubEntry.delivered = some true) :=
  ⟨rfl, rfl, subscribe_pre_resolved hf0 3 7 emptyBeacon
    (BeaconState.mk [(103, 3)] [] 0) rfl rfl⟩

/-- C10: `Settle` completes with a successful result even though the
subscription's owner has not consumed the update: the published preimage
stays buffered in the subscription's delivery slot and is still receivable
after the settle has returned. -/
theorem settle_returns_update_buffered (hashFn : Preimage → PaymentHash)
    (p : Preimage) (ctx d : Nat) (b : BeaconState)
    (hstore : b.store.lookup (hashFn p) = none)
    (hfresh : b.subs.lookup b.nextId = none) :
    ∃ g2, resolve hashFn (.settleV p)
        (intercept (hashFn p) d (subscribe (hashFn p) ctx b).1) = .ok g2 ∧
      (g2.beacon.subs.lookup (subscribe (hashFn p) ctx b).2).map
          SubEntry.updates = some [p] ∧
      ∃ b3, receiveUpdate (subscribe (hashFn p) ctx b).2 g2.beacon =
        some (p, b3) := by
  obtain ⟨g2, h1, _, h3, _⟩ :=
    settle_after_subscribe hashFn p ctx d b hstore hfresh
  refine ⟨g2, h1, by rw [h3]; rfl, ?_⟩
  unfold receiveUpdate
  rw [h3]
  exact ⟨_, rfl⟩

/-! Repeated publication of the same value. -/

theorem publish_dup (hashFn : Preimage → PaymentHash) (p : Preimage)
    (b : BeaconState) (hdup : b.store.lookup (hashFn p) = some p) :
    publish hashFn p b =
      .ok { b with
            subs := b.subs.map (fun ie =>
              (ie.1, deliver (hashFn p) p ie.2)) } := by
  unfold publish
  simp only [hdup]
  simp

theorem deliver_delivered (h : PaymentHash) (p : Preimage) (e : SubEntry)
    (hd : e.delivered = true) : deliver h p e = e := by
  unfold deliver
  have hn : ¬ (e.hash = h ∧ e.delivered = false ∧ e.canceled = false) := by
    rintro ⟨-, h2, -⟩
    rw [hd] at h2
    cases h2
  rw [if_neg hn]

theorem publish_after_subscribe (hashFn : Preimage → PaymentHash)
    (p : Preimage) (ctx : Nat) (b : BeaconState)
    (hstore : b.store.lookup (hashFn p) = none)
    (hfresh : b.subs.lookup b.nextId = none) :
    ∃ b2, publish hashFn p (subscribe (hashFn p) ctx b).1 = .ok b2 ∧
      b2.store.lookup (hashFn p) = some p ∧
      b2.subs.lookup (subscribe (hashFn p) ctx b).2 =
        some (SubEntry.mk (hashFn p) ctx [p] true false) := by
  obtain ⟨hsubs, hst, hid⟩ := subscribe_entry (hashFn p) ctx b hstore
  refine ⟨{ (subscribe (hashFn p) ctx b).1 with
      store := (hashFn p, p) :: (subscribe (hashFn p) ctx b).1.store,
      subs := (subscribe (hashFn p) ctx b).1.subs.map
        (fun ie => (ie.1, deliver (hashFn p) p ie.2)) }, ?_, ?_, ?_⟩
  · unfold publish
    simp only [hst, hstore]
  · show (((hashFn p, p) ::
        (subscribe (hashFn p) ctx b).1.store).lookup (hashFn p)) = some p
    simp [List.lookup_cons]
  · show (((subscribe (hashFn p) ctx b).1.subs.map
        (fun ie => (ie.1, deliver (hashFn p) p ie.2))).lookup
          (subscribe (hashFn p) ctx b).2) = _
    rw [lookup_map_snd, hid, hsubs,
      lookup_append_fresh b.subs b.nextId _ hfresh]
    simp [deliver_fresh]

theorem publishMany_stable (hashFn : Preimage → PaymentHash) (p : Preimage)
    (n id : Nat) (e : SubEntry) (hd : e.delivered = true) :
    ∀ b : BeaconState, b.store.lookup (hashFn p) = some p →
      b.subs.lookup id = some e →
      ∃ b3, publishMany hashFn p n b = .ok b3 ∧ b3.store = b.store ∧
        b3.subs.lookup id = some e := by
  induction n with
  | zero => exact fun b h1 h2 => ⟨b, rfl, rfl, h2⟩
  | succ n ih =>
      intro b h1 h2
      have hp := publish_dup hashFn p b h1
      have hl2 : ({ b with
          subs := b.subs.map (fun ie =>
            (ie.1, deliver (hashFn p) p ie.2)) } :
            BeaconState).subs.lookup id = some e := by
        show ((b.subs.map
            (fun ie => (ie.1, deliver (hashFn p) p ie.2))).lookup id) =
          some e
        rw [lookup_map_snd, h2]
        simp [deliver_delivered _ _ _ hd]
      obtain ⟨b3, k1, k2, k3⟩ := ih { b with
        subs := b.subs.map (fun ie =>
          (ie.1, deliver (hashFn p) p ie.2)) } h1 hl2
      refine ⟨b3, ?_, k2, k3⟩
      show publishMany hashFn p (n + 1) b = .ok b3
      unfold publishMany
      rw [hp]
      exact k1

/-- C3: each subscription receives exactly one update even when publish is
invoked repeatedly with the same value: after the first publish the
subscription's delivery slot holds the single update `[p]`, and any number of
further publishes of the same value succeed as no-ops, leaving the Witness
Store and the subscription's slot unchanged. -/
theorem exactly_once_delivery (hashFn : Preimage → PaymentHash)
    (p : Preimage) (ctx n : Nat) (b : BeaconState)
    (hstore : b.store.lookup (hashFn p) = none)
    (hfresh : b.subs.lookup b.nextId = none) :
    ∃ b2 b3,
      publish hashFn p (subscribe (hashFn p) ctx b).1 = .ok b2 ∧
      (b2.subs.lookup (subscribe (hashFn p) ctx b).2).map SubEntry.updates =
        some [p] ∧
      publishMany hashFn p n b2 = .ok b3 ∧
      b3.store = b2.store ∧
      (b3.subs.lookup (subscribe (hashFn p) ctx b).2).map SubEntry.updates =
        some [p] := by
  obtain ⟨b2, hp1, hs2, hl2⟩ :=
    publish_after_subscribe hashFn p ctx b hstore hfresh
  obtain ⟨b3, hm, hms, hml⟩ :=
    publishMany_stable hashFn p n (subscribe (hashFn p) ctx b).2
      (SubEntry.mk (hashFn p) ctx [p] true false) rfl b2 hs2 hl2
  exact ⟨b2, b3, hp1, by rw [hl2]; rfl, hm, hms, by rw [hml]; rfl⟩

theorem exactly_once_delivery_witness :
    emptyBeacon.store.lookup (hf0 3) = none ∧
      emptyBeacon.subs.lookup emptyBeacon.nextId = none ∧
      ∃ b2 b3,
        publish hf0 3 (subscribe (hf0 3) 2 emptyBeacon).1 = .ok b2 ∧
        (b2.subs.lookup (subscribe (hf0 3) 2 emptyBeacon).2).map
            SubEntry.updates = some [3] ∧
        publishMany hf0 3 2 b2 = .ok b3 ∧
        b3.store = b2.store ∧
        (b3.subs.lookup (subscribe (hf0 3) 2 emptyBeacon).2).map
            SubEntry.updates = some [3] :=
  ⟨rfl, rfl, exactly_once_delivery hf0 3 2 2 emptyBeacon rfl rfl⟩

theorem settle_returns_update_buffered_witness :
    emptyBeacon.store.lookup (hf0 3) = none ∧
      emptyBeacon.subs.lookup emptyBeacon.nextId = none ∧
      ∃ g2, resolve hf0 (.settleV 3)
          (intercept (hf0 3) 5 (subscribe (hf0 3) 2 emptyBeacon).1) =
            .ok g2 ∧
        (g2.beacon.subs.lookup (subscribe (hf0 3) 2 emptyBeacon).2).map
            SubEntry.updates = some [3] ∧
        ∃ b3, receiveUpdate (subscribe (hf0 3) 2 emptyBeacon).2 g2.beacon =
          some (3, b3) :=
  ⟨rfl, rfl, settle_returns_update_buffered hf0 3 2 5 emptyBeacon rfl rfl⟩

/-! Cancellation. -/

theorem cancelMark_idem (id : Nat) (ie : Nat × SubEntry) :
    cancelMark id (cancelMark id ie) = cancelMark id ie := by
  by_cases hc : ie.1 = id <;> simp [cancelMark, hc]

theorem lookup_cancelMark (id j : Nat) (l : List (Nat × SubEntry)) :
    ((l.map (cancelMark id)).lookup j).map SubEntry.updates =
      (l.lookup j).map SubEntry.updates := by
  induction l with
  | nil => rfl
  | cons a t ih =>
      obtain ⟨k1, e1⟩ := a
      by_cases hc : k1 = id
      · subst hc
        cases hk : j == k1 <;>
          simp [cancelMark, List.lookup_cons, hk, ih]
      · cases hk : j == k1 <;>
          simp [cancelMark, hc, List.lookup_cons, hk, ih]

/-- C8: `CancelSubscription` is idempotent and safe in every state: it is a
total operation (it never fails), a second call is a no-op producing the same
state, and cancelling never removes an already-delivered update from any
subscription's delivery slot, before or after delivery. -/
theorem cancel_idempotent_safe (id : Nat) (b : BeaconState) :
    cancelSubscription id (cancelSubscription id b) =
      cancelSubscription id b ∧
    ∀ j, ((cancelSubscription id b).subs.lookup j).map SubEntry.updates =
      (b.subs.lookup j).map SubEntry.updates := by
  constructor
  · show ({ b with
        subs := (b.subs.map (cancelMark id)).map (cancelMark id) } :
          BeaconState) = _
    rw [List.map_map]
    have hff : cancelMark id ∘ cancelMark id = cancelMark id :=
      funext fun ie => cancelMark_idem id ie
    rw [hff]
    rfl
  · intro j
    exact lookup_cancelMark id j b.subs

/-! Timeout behaviour of the interception gate. -/

theorem resolve_ok_fields (hashFn : Preimage → PaymentHash) (v : Verdict)
    (s s2 : GateState) (h : resolve hashFn v s = .ok s2) :
    s2.fwd ≠ .Pending ∧ s2.now = s.now ∧ s2.deadline = s.deadline := by
  unfold resolve at h
  by_cases hp : s.fwd = .Pending
  · rw [if_pos hp] at h
    cases v with
    | settleV p =>
        dsimp only at h
        by_cases hm : hashFn p = s.paymentHash
        · rw [if_pos hm] at h
          cases hpub : publish hashFn p s.beacon with
          | ok b2 =>
              rw [hpub] at h
              cases h
              exact ⟨by simp, rfl, rfl⟩
          | error e => rw [hpub] at h; cases h
        · rw [if_neg hm] at h; cases h
    | failV r => cases h; exact ⟨by simp, rfl, rfl⟩
    | resumeV => cases h; exact ⟨by simp, rfl, rfl⟩
  · rw [if_neg hp] at h; cases h

theorem tick_no_late_pending (s : GateState)
    (hinv : s.deadline ≤ s.now → s.fwd ≠ .Pending) :
    (tick s).deadline ≤ (tick s).now → (tick s).fwd ≠ .Pending := by
  unfold tick
  by_cases hc : s.deadline ≤ s.now + 1 ∧ s.fwd = .Pending
  · rw [if_pos hc]
    intro _ hpend
    cases hpend
  · rw [if_neg hc]
    intro hle hpend
    exact hc ⟨hle, hpend⟩

theorem gateStep_no_late_pending (hashFn : Preimage → PaymentHash)
    (ev : GateEvent) (s : GateState)
    (hinv : s.deadline ≤ s.now → s.fwd ≠ .Pending) :
    (gateStep hashFn ev s).deadline ≤ (gateStep hashFn ev s).now →
      (gateStep hashFn ev s).fwd ≠ .Pending := by
  cases ev with
  | tickEv => exact tick_no_late_pending s hinv
  | verdict v =>
      cases hres : resolve hashFn v s with
      | ok s2 =>
          have hg : gateStep hashFn (.verdict v) s = s2 := by
            simp only [gateStep, hres]
          rw [hg]
          obtain ⟨hnp, -, -⟩ := resolve_ok_fields hashFn v s s2 hres
          exact fun _ => hnp
      | error e =>
          have hg : gateStep hashFn (.verdict v) s = s := by
            simp only [gateStep, hres]
          rw [hg]
          exact hinv

theorem runGate_no_late_pending (hashFn : Preimage → PaymentHash)
    (evs : List GateEvent) :
    ∀ s : GateState, (s.deadline ≤ s.now → s.fwd ≠ .Pending) →
      (runGate hashFn evs s).deadline ≤ (runGate hashFn evs s).now →
        (runGate hashFn evs s).fwd ≠ .Pending := by
  induction evs with
  | nil => exact fun s hinv => hinv
  | cons e t ih =>
      intro s hinv
      exact ih (gateStep hashFn e s) (gateStep_no_late_pending hashFn e s hinv)

theorem tick_not_pending (s : GateState) (h : s.fwd ≠ .Pending) :
    tick s = { s with now := s.now + 1 } := by
  unfold tick
  rw [if_neg fun hc => h hc.2]

theorem runGate_ticks_timedOut (hashFn : Preimage → PaymentHash) (n : Nat) :
    ∀ s : GateState, s.fwd = .TimedOut .interceptionTimeout →
      (runGate hashFn (List.replicate n .tickEv) s).fwd =
        .TimedOut .interceptionTimeout := by
  induction n with
  | zero => exact fun s hs => hs
  | succ n ih =>
      intro s hs
      have ht : tick s = { s with now := s.now + 1 } :=
        tick_not_pending s (by rw [hs]; intro hh; cases hh)
      show (runGate hashFn (List.replicate n .tickEv) (tick s)).fwd = _
      rw [ht]
      exact ih { s with now := s.now + 1 } hs

theorem ticks_fire_timeout (hashFn : Preimage → PaymentHash) (n : Nat) :
    ∀ s : GateState, s.fwd = .Pending → s.deadline ≤ s.now + n →
      s.now < s.deadline →
      (runGate hashFn (List.replicate n .tickEv) s).fwd =
        .TimedOut .interceptionTimeout := by
  induction n with
  | zero =>
      intro s _ h1 h2
      omega
  | succ n ih =>
      intro s hp h1 h2
      show (runGate hashFn (List.replicate n .tickEv) (tick s)).fwd = _
      by_cases hc : s.deadline ≤ s.now + 1
      · have ht : tick s =
            { s with
              now := s.now + 1, fwd := .TimedOut .interceptionTimeout } := by
          unfold tick
          rw [if_pos ⟨hc, hp⟩]
        rw [ht]
        exact runGate_ticks_timedOut hashFn n _ rfl
      · have ht : tick s = { s with now := s.now + 1 } := by
          unfold tick
          rw [if_neg fun hcc => hc hcc.1]
        rw [ht]
        exact ih { s with now := s.now + 1 } hp
          (by show s.deadline ≤ s.now + 1 + n; omega)
          (by show s.now + 1 < s.deadline; omega)

/-- C7: no intercepted forward remains `Pending` past its deadline: over any
event trace the gate's state never shows a `Pending` forward once the clock
has reached the deadline, and a forward receiving no interceptor verdict
(a trace of time passing only) ends in `TimedOut` with the canonical
interception-timeout reason. -/
theorem timeout_safety (hashFn : Preimage → PaymentHash) (h d : Nat)
    (b : BeaconState) (evs : List GateEvent) (hd : 0 < d) :
    ((runGate hashFn evs (intercept h d b)).deadline ≤
        (runGate hashFn evs (intercept h d b)).now →
      (runGate hashFn evs (intercept h d b)).fwd ≠ .Pending) ∧
    (∀ n, d ≤ n →
      (runGate hashFn (List.replicate n .tickEv) (intercept h d b)).fwd =
        .TimedOut .interceptionTimeout) := by
  constructor
  · exact runGate_no_late_pending hashFn evs (intercept h d b)
      (fun hle => absurd hle (by show ¬ d ≤ 0; omega))
  · intro n hn
    exact ticks_fire_timeout hashFn n (intercept h d b) rfl
      (by show d ≤ 0 + n; omega) (by show (0:Nat) < d; omega)

theorem timeout_safety_witness :
    (0:Nat) < 2 ∧
    ((((runGate hf0 [.verdict .resumeV] (intercept 1 2 emptyBeacon)).deadline ≤
        (runGate hf0 [.verdict .resumeV] (intercept 1 2 emptyBeacon)).now →
      (runGate hf0 [.verdict .resumeV] (intercept 1 2 emptyBeacon)).fwd ≠
        .Pending) ∧
    (∀ n, 2 ≤ n →
      (runGate hf0 (List.replicate n .tickEv) (intercept 1 2 emptyBeacon)).fwd =
        .TimedOut .interceptionTimeout))) :=
  ⟨by decide, timeout_safety hf0 1 2 emptyBeacon [.verdict .resumeV]
    (by decide)⟩

/-! The payload of a delivered update. -/

/-- The update received by the subscriber in the canonical scenario of the
test `TestWitnessBeaconIntercept`: subscribe for `hash(p)` on a fresh beacon,
settle the intercepted forward with `p`, and read the first value buffered in
the subscription's delivery slot. -/
def deliveredUpdate (hashFn : Preimage → PaymentHash) (p : Preimage) :
    Option Preimage :=
  match resolve hashFn (.settleV p)
      (intercept (hashFn p) 1 (subscribe (hashFn p) 0 emptyBeacon).1) with
  | .ok g2 =>
      ((g2.beacon.subs.lookup (subscribe (hashFn p) 0 emptyBeacon).2).map
        SubEntry.updates).bind List.head?
  | .error _ => none

/-- C9 counterexample: the value delivered to a subscriber does not carry the
payment hash it resolves — there is no function of the delivered payload
alone that recovers the hash, because two scenarios with different hash
functions deliver the identical payload (the bare preimage `3`) for the
distinct hashes `5` and `7`. -/
theorem witness_update_lacks_hash :
    ¬ ∃ getHash : Preimage → PaymentHash,
        ∀ (hashFn : Preimage → PaymentHash) (p u : Preimage),
          deliveredUpdate hashFn p = some u → getHash u = hashFn p := by
  rintro ⟨g, hg⟩
  have h5 : g 3 = 5 := hg (fun _ => 5) 3 3 rfl
  have h7 : g 3 = 7 := hg (fun _ => 7) 3 3 rfl
  rw [h5] at h7
  cases h7

/-- C9 amended: every update delivered to a subscriber carries the resolved
preimage — the delivered payload is exactly the preimage — while the payment
hash it resolves is identified by the subscription it arrives on (whose key
records the hash), not carried inside the payload. -/
theorem witness_update_carries_preimage (hashFn : Preimage → PaymentHash)
    (p : Preimage) :
    deliveredUpdate hashFn p = some p ∧
    ((subscribe (hashFn p) 0 emptyBeacon).1.subs.lookup
        (subscribe (hashFn p) 0 emptyBeacon).2).map SubEntry.hash =
      some (hashFn p) := by
  obtain ⟨g2, hres, -, hlook, -⟩ :=
    settle_after_subscribe hashFn p 0 1 emptyBeacon rfl rfl
  constructor
  · unfold deliveredUpdate
    rw [hres]
    dsimp only
    rw [hlook]
    rfl
  · simp [subscribe, emptyBeacon, List.lookup_cons]

end PreimageBeacon
